import Mathlib

/-!
# newtmgr command line: a shallow embedding of `newtmgr/newtmgr.go`

The commands of `newtmgr.go` are embedded as functions over an explicit process
state.  Everything the file calls in the packages `cli`, `transport`, `protocol`
and `util` is a field of `Env`: a state transformer over an arbitrary world `W`
(the device, the channel, the profile database, the clock).  A run produces the
way the process ends (`Halt`) and the trace of what it did (`Event`).
-/

namespace Newtmgr

/-- A byte string, `[]byte`. -/
abbrev Bytes := List Nat

/-- A Go `error` value that is not nil.  `newt` is a value of dynamic type
`*util.NewtError` (fields `Text` and `StackTrace`); `foreign` is an error of any
other dynamic type, with the text its `Error()` method returns. -/
inductive GoError where
  | newt (Text : String) (StackTrace : String)
  | foreign (text : String)
deriving DecidableEq, Repr

/-- The method `Error()` of an error value. -/
def GoError.Error : GoError → String
  | .newt text _ => text
  | .foreign text => text

/-- The type `cli.ConnProfile`, with the three fields `newtmgr.go` reads and writes
(`Typ` is the field `Type`, a reserved word here). -/
structure ConnProfile where
  Name : String
  Typ : String
  ConnString : String
deriving DecidableEq, Repr

/-- The type `protocol.Echo`; `newtmgr.go` uses its field `Message`. -/
structure Echo where
  Message : String
deriving DecidableEq, Repr

/-- The type `protocol.NmgrReq`; `newtmgr.go` reads its field `Data`, the other
content of the request is kept as uninterpreted bytes. -/
structure NmgrReq where
  hdr : Bytes
  Data : Bytes
deriving DecidableEq, Repr

/-- A `*cobra.Command` value; `newtmgr.go` only calls `Help` on it. -/
structure Command where
  Use : String
  Short : String
deriving DecidableEq, Repr

/-- The package-level variables of `newtmgr.go`. -/
structure Globals where
  ConnProfileName : String
  LogLevel : String
deriving DecidableEq, Repr

/-- The operations of the packages `cli`, `transport` and `protocol` that
`newtmgr.go` calls.  `Close` is the operation of a transport connection that
releases it. -/
inductive Step where
  | NewCpMgr | NewConnProfile | AddConnProfile | GetConnProfileList
  | DeleteConnProfile | GetConnProfile | NewConn | NewCmdRunner | NewEcho
  | EncodeWriteRequest | WriteReq | ReadReq | DecodeEchoResponse | Close
deriving DecidableEq, Repr

/-- A call of one of the operations, with its arguments.  The profile manager,
the connection and the command runner are pointers, modelled as handles. -/
inductive Call where
  | NewCpMgr
  | NewConnProfile (name : String)
  | AddConnProfile (cpm : Nat) (cp : ConnProfile)
  | GetConnProfileList (cpm : Nat)
  | DeleteConnProfile (cpm : Nat) (name : String)
  | GetConnProfile (cpm : Nat) (name : String)
  | NewConn (profile : ConnProfile)
  | NewCmdRunner (conn : Nat)
  | NewEcho
  | EncodeWriteRequest (echo : Echo)
  | WriteReq (runner : Nat) (nmr : NmgrReq)
  | ReadReq (runner : Nat)
  | DecodeEchoResponse (data : Bytes)
  | Close (conn : Nat)
deriving DecidableEq, Repr

/-- The operation a call is a call of. -/
def Call.step : Call → Step
  | .NewCpMgr => .NewCpMgr
  | .NewConnProfile _ => .NewConnProfile
  | .AddConnProfile _ _ => .AddConnProfile
  | .GetConnProfileList _ => .GetConnProfileList
  | .DeleteConnProfile _ _ => .DeleteConnProfile
  | .GetConnProfile _ _ => .GetConnProfile
  | .NewConn _ => .NewConn
  | .NewCmdRunner _ => .NewCmdRunner
  | .NewEcho => .NewEcho
  | .EncodeWriteRequest _ => .EncodeWriteRequest
  | .WriteReq _ _ => .WriteReq
  | .ReadReq _ => .ReadReq
  | .DecodeEchoResponse _ => .DecodeEchoResponse
  | .Close _ => .Close

/-- What a run does, in order: calls into the other packages, each with the error
it returned (`none` for nil), text `newtmgr.go` itself writes to the standard
output (`fmt.Printf`, `fmt.Println`) and to the standard error (`fmt.Fprintf`), and
`cmd.Help()`, whose text is written by the library `cobra` and is not in `stdout`. -/
inductive Event where
  | call (c : Call) (err : Option GoError)
  | stdout (text : String)
  | stderr (text : String)
  | help
deriving DecidableEq, Repr

/-- Why the Go runtime aborts a run. -/
inductive Panic where
  | indexOutOfRange
  | interfaceConversion
deriving DecidableEq, Repr

/-- How a command ends: it returns to cobra, it calls `os.Exit(code)`, or the Go
runtime panics (the process then ends with status 2). -/
inductive Halt where
  | returned
  | exit (code : Nat)
  | panic (why : Panic)
deriving DecidableEq, Repr

/-- The exit status of the process for a way of ending. -/
def Halt.status : Halt → Nat
  | .returned => 0
  | .exit code => code
  | .panic _ => 2

/-- The state of a run: the world outside the process and the trace so far. -/
structure Proc (W : Type) where
  world : W
  trace : List Event

/-- The state a run starts from. -/
def Proc.init {W : Type} (w : W) : Proc W := { world := w, trace := [] }

/-- Record an event. -/
def Proc.emit {W : Type} (s : Proc W) (e : Event) : Proc W :=
  { s with trace := s.trace ++ [e] }

/-- Record a call that returned the error `err` and left the world in state `w`. -/
def Proc.invoke {W : Type} (s : Proc W) (c : Call) (err : Option GoError) (w : W) : Proc W :=
  { world := w, trace := s.trace ++ [Event.call c err] }

/-- The behaviour of the packages `newtmgr.go` calls into, over a world `W`.
An operation of Go type `(T, error)` returns `Except GoError T`, one of type
`error` returns `Option GoError`.  `runtimeStack` is what `runtime.Stack` writes
into the `StackTrace` of an error made by `util.NewNewtError`. -/
structure Env (W : Type) where
  NewCpMgr : W → Except GoError Nat × W
  NewConnProfile : String → W → Except GoError ConnProfile × W
  AddConnProfile : Nat → ConnProfile → W → Option GoError × W
  GetConnProfileList : Nat → W → Except GoError (List ConnProfile) × W
  DeleteConnProfile : Nat → String → W → Option GoError × W
  GetConnProfile : Nat → String → W → Except GoError ConnProfile × W
  NewConn : ConnProfile → W → Except GoError Nat × W
  NewCmdRunner : Nat → W → Except GoError Nat × W
  NewEcho : W → Except GoError Echo × W
  EncodeWriteRequest : Echo → W → Except GoError NmgrReq × W
  WriteReq : Nat → NmgrReq → W → Option GoError × W
  ReadReq : Nat → W → Except GoError NmgrReq × W
  DecodeEchoResponse : Bytes → W → Except GoError Echo × W
  runtimeStack : String

/-- The function `util.NewNewtError`: an error of type `*util.NewtError` whose
`Text` is the message. -/
def NewNewtError {W : Type} (env : Env W) (msg : String) : GoError :=
  GoError.newt msg env.runtimeStack

/-- The function `nmUsage`.  With an error: `err.(*util.NewtError)` panics unless
the error has that dynamic type, then `ERROR: <text>` goes to the standard output
and the stack trace to the standard error.  Then `cmd.Help()` when `cmd` is not
nil, and `os.Exit(1)`. -/
def nmUsage {W : Type} (cmd : Option Command) (err : Option GoError) (s : Proc W) :
    Halt × Proc W :=
  match err with
  | some (GoError.foreign _) => (Halt.panic Panic.interfaceConversion, s)
  | some (GoError.newt text stack) =>
    let s := (s.emit (Event.stdout ("ERROR: " ++ (GoError.newt text stack).Error ++ "\n"))).emit
      (Event.stderr ("[DEBUG] " ++ stack))
    match cmd with
    | some _ => (Halt.exit 1, s.emit Event.help)
    | none => (Halt.exit 1, s)
  | none =>
    match cmd with
    | some _ => (Halt.exit 1, s.emit Event.help)
    | none => (Halt.exit 1, s)

/-- The function `echoRunCmd`. -/
def echoRunCmd {W : Type} (env : Env W) (g : Globals) (cmd : Option Command)
    (args : List String) (s : Proc W) : Halt × Proc W :=
  match env.NewCpMgr s.world with
  | (.error err, w) => nmUsage cmd (some err) (s.invoke Call.NewCpMgr (some err) w)
  | (.ok cpm, w) =>
  let s := s.invoke Call.NewCpMgr none w
  match env.GetConnProfile cpm g.ConnProfileName s.world with
  | (.error err, w) =>
    nmUsage cmd (some err) (s.invoke (Call.GetConnProfile cpm g.ConnProfileName) (some err) w)
  | (.ok profile, w) =>
  let s := s.invoke (Call.GetConnProfile cpm g.ConnProfileName) none w
  match env.NewConn profile s.world with
  | (.error err, w) => nmUsage cmd (some err) (s.invoke (Call.NewConn profile) (some err) w)
  | (.ok conn, w) =>
  let s := s.invoke (Call.NewConn profile) none w
  match env.NewCmdRunner conn s.world with
  | (.error err, w) => nmUsage cmd (some err) (s.invoke (Call.NewCmdRunner conn) (some err) w)
  | (.ok runner, w) =>
  let s := s.invoke (Call.NewCmdRunner conn) none w
  match env.NewEcho s.world with
  | (.error err, w) => nmUsage cmd (some err) (s.invoke Call.NewEcho (some err) w)
  | (.ok echo0, w) =>
  let s := s.invoke Call.NewEcho none w
  match args with
  | [] => (Halt.panic Panic.indexOutOfRange, s)
  | arg0 :: _ =>
  let echo : Echo := { echo0 with Message := arg0 }
  match env.EncodeWriteRequest echo s.world with
  | (.error err, w) => nmUsage cmd (some err) (s.invoke (Call.EncodeWriteRequest echo) (some err) w)
  | (.ok nmr, w) =>
  let s := s.invoke (Call.EncodeWriteRequest echo) none w
  match env.WriteReq runner nmr s.world with
  | (some err, w) => nmUsage cmd (some err) (s.invoke (Call.WriteReq runner nmr) (some err) w)
  | (none, w) =>
  let s := s.invoke (Call.WriteReq runner nmr) none w
  match env.ReadReq runner s.world with
  | (.error err, w) => nmUsage cmd (some err) (s.invoke (Call.ReadReq runner) (some err) w)
  | (.ok rsp, w) =>
  let s := s.invoke (Call.ReadReq runner) none w
  match env.DecodeEchoResponse rsp.Data s.world with
  | (.error err, w) =>
    nmUsage cmd (some err) (s.invoke (Call.DecodeEchoResponse rsp.Data) (some err) w)
  | (.ok ersp, w) =>
  let s := s.invoke (Call.DecodeEchoResponse rsp.Data) none w
  (Halt.returned, s.emit (Event.stdout (ersp.Message ++ "\n")))

/-- The operations called in a trace, in order. -/
def calls (tr : List Event) : List Step :=
  tr.filterMap fun e =>
    match e with
    | Event.call c _ => some c.step
    | _ => none

/-- The text `newtmgr.go` itself writes to the standard output in a trace
(`fmt.Printf`, `fmt.Println`), in order; what `cmd.Help()` writes is the event
`help`, not part of it. -/
def printed (tr : List Event) : List String :=
  tr.filterMap fun e =>
    match e with
    | Event.stdout t => some t
    | _ => none

/-- The steps of one echo exchange, in the order of the source. -/
def echoSteps : List Step :=
  [Step.NewCpMgr, Step.GetConnProfile, Step.NewConn, Step.NewCmdRunner, Step.NewEcho,
   Step.EncodeWriteRequest, Step.WriteReq, Step.ReadReq, Step.DecodeEchoResponse]


/-- A text as bytes, one byte for each character (a demonstration codec for the
payload of an echo message). -/
def textBytes (t : String) : Bytes := t.toList.map Char.toNat

/-- The text of a byte string, one character for each byte. -/
def bytesText (data : Bytes) : String := String.mk (data.map Char.ofNat)

/-- Modelled from the spec: the contract of the echo message of the Message Catalog
(sections 4.4, 6 and 8), whose codec (package `protocol`) is not under src/:
`encodeRequest` from the text field to payload bytes, `decodeResponse` from payload
bytes back to the field, and the round-trip law of the two.  The spec does not fix
the bytes, so the two functions are a parameter. -/
structure EchoCodec where
  encodeRequest : String → Bytes
  decodeResponse : Bytes → Except GoError Echo
  round_trip : ∀ t, decodeResponse (encodeRequest t) = Except.ok { Message := t }

/-- A demonstration codec of the echo message: the payload is the text, one byte
for each character. -/
def demoCodec : EchoCodec where
  encodeRequest := textBytes
  decodeResponse := fun data => Except.ok { Message := bytesText data }
  round_trip := by
    intro t
    simp [textBytes, bytesText, List.map_map, Function.comp_def]

/-- A demonstration environment: a device that sends every frame it receives
back.  The world is the list of frames in flight; reading with no frame in flight
fails with an error of the standard library (not a `*util.NewtError`). -/
def loopback : Env (List NmgrReq) where
  NewCpMgr := fun w => (Except.ok 1, w)
  NewConnProfile := fun name w => (Except.ok { Name := name, Typ := "", ConnString := "" }, w)
  AddConnProfile := fun _ _ w => (none, w)
  GetConnProfileList := fun _ w => (Except.ok [], w)
  DeleteConnProfile := fun _ _ w => (none, w)
  GetConnProfile := fun _ name w =>
    (Except.ok { Name := name, Typ := "serial", ConnString := "/dev/ttyUSB0" }, w)
  NewConn := fun _ w => (Except.ok 2, w)
  NewCmdRunner := fun _ w => (Except.ok 3, w)
  NewEcho := fun w => (Except.ok { Message := "" }, w)
  EncodeWriteRequest := fun e w => (Except.ok { hdr := [], Data := textBytes e.Message }, w)
  WriteReq := fun _ nmr w => (none, w ++ [nmr])
  ReadReq := fun _ w =>
    match w with
    | [] => (Except.error (GoError.foreign "EOF"), [])
    | r :: rest => (Except.ok r, rest)
  DecodeEchoResponse := fun data w => (Except.ok { Message := bytesText data }, w)
  runtimeStack := "goroutine 1 [running]"

/-- A demonstration environment: as `loopback`, but the device drops every frame
and never answers. -/
def silent : Env (List NmgrReq) :=
  { loopback with WriteReq := fun _ _ w => (none, w) }

/-- The package-level variables as the flag `-c usb` leaves them. -/
def demoGlobals : Globals := { ConnProfileName := "usb", LogLevel := "" }

/-- The cobra command of `echo`. -/
def echoCommand : Command :=
  { Use := "echo",
    Short := "Send data to remote endpoint using newtmgr, and receive data back" }

/-- Whether every `ReadReq` of a list of steps has a `WriteReq` before it. -/
def writeBeforeRead (tr : List Step) : Prop :=
  ∀ i, i < tr.length → tr[i]? = some Step.ReadReq →
    ∃ j, j < i ∧ tr[j]? = some Step.WriteReq

instance writeBeforeRead.decidable (tr : List Step) : Decidable (writeBeforeRead tr) := by
  unfold writeBeforeRead; infer_instance

/-! ## The connection profile commands -/

/-- The pieces of a list of characters between the occurrences of `=`. -/
def splitChars : List Char → List (List Char)
  | [] => [[]]
  | c :: cs =>
    if c = '=' then [] :: splitChars cs
    else
      match splitChars cs with
      | piece :: pieces => (c :: piece) :: pieces
      | [] => [[c]]

/-- The call `strings.Split(vdef, "=")`. -/
def Split (vdef : String) : List String := (splitChars vdef.toList).map String.mk

/-- The loop of `connProfileAddCmd` over the variable definitions `args[1:]`, run
in state `s` on the profile `cp`: the profile with the variables set, or the way
the process ends.  Reading `s[1]` of a definition without `=` panics. -/
def connProfileAddVars {W : Type} (env : Env W) (cmd : Option Command) (s : Proc W) :
    List String → ConnProfile → Except (Halt × Proc W) ConnProfile
  | [], cp => Except.ok cp
  | vdef :: vdefs, cp =>
    match Split vdef with
    | [] => Except.error (Halt.panic Panic.indexOutOfRange, s)
    | s0 :: rest =>
      if s0 = "name" then
        match rest with
        | [] => Except.error (Halt.panic Panic.indexOutOfRange, s)
        | s1 :: _ => connProfileAddVars env cmd s vdefs { cp with Name := s1 }
      else if s0 = "type" then
        match rest with
        | [] => Except.error (Halt.panic Panic.indexOutOfRange, s)
        | s1 :: _ => connProfileAddVars env cmd s vdefs { cp with Typ := s1 }
      else if s0 = "connstring" then
        match rest with
        | [] => Except.error (Halt.panic Panic.indexOutOfRange, s)
        | s1 :: _ => connProfileAddVars env cmd s vdefs { cp with ConnString := s1 }
      else
        Except.error (nmUsage cmd (some (NewNewtError env ("Unknown variable " ++ s0))) s)

/-- The function `connProfileAddCmd`. -/
def connProfileAddCmd {W : Type} (env : Env W) (cmd : Option Command)
    (args : List String) (s : Proc W) : Halt × Proc W :=
  match env.NewCpMgr s.world with
  | (.error err, w) => nmUsage cmd (some err) (s.invoke Call.NewCpMgr (some err) w)
  | (.ok cpm, w) =>
  let s := s.invoke Call.NewCpMgr none w
  match args with
  | [] => (Halt.panic Panic.indexOutOfRange, s)
  | name :: vdefs =>
  match env.NewConnProfile name s.world with
  | (.error err, w) => nmUsage cmd (some err) (s.invoke (Call.NewConnProfile name) (some err) w)
  | (.ok cp, w) =>
  let s := s.invoke (Call.NewConnProfile name) none w
  match connProfileAddVars env cmd s vdefs cp with
  | .error ending => ending
  | .ok cp =>
  match env.AddConnProfile cpm cp s.world with
  | (some err, w) => nmUsage cmd (some err) (s.invoke (Call.AddConnProfile cpm cp) (some err) w)
  | (none, w) =>
  let s := s.invoke (Call.AddConnProfile cpm cp) none w
  (Halt.returned,
    s.emit (Event.stdout ("Connection profile " ++ name ++ " successfully added\n")))

/-- The line `connProfileShowCmd` prints for a profile. -/
def profileLine (cp : ConnProfile) : String :=
  "  " ++ cp.Name ++ ": type=" ++ cp.Typ ++ ", connstring='" ++ cp.ConnString ++ "'\n"

/-- The loop of `connProfileShowCmd` over the list of profiles, with the variable
`found`. -/
def connProfileShowLoop {W : Type} (name : String) :
    List ConnProfile → Bool → Proc W → Bool × Proc W
  | [], found, s => (found, s)
  | cp :: cpList, found, s =>
    if name ≠ "" ∧ cp.Name ≠ name then connProfileShowLoop name cpList found s
    else
      let s := if !found then s.emit (Event.stdout "Connection profiles: \n") else s
      connProfileShowLoop name cpList true (s.emit (Event.stdout (profileLine cp)))

/-- The function `connProfileShowCmd`. -/
def connProfileShowCmd {W : Type} (env : Env W) (cmd : Option Command)
    (args : List String) (s : Proc W) : Halt × Proc W :=
  match env.NewCpMgr s.world with
  | (.error err, w) => nmUsage cmd (some err) (s.invoke Call.NewCpMgr (some err) w)
  | (.ok cpm, w) =>
  let s := s.invoke Call.NewCpMgr none w
  let name :=
    match args with
    | arg0 :: _ => arg0
    | [] => ""
  match env.GetConnProfileList cpm s.world with
  | (.error err, w) =>
    nmUsage cmd (some err) (s.invoke (Call.GetConnProfileList cpm) (some err) w)
  | (.ok cpList, w) =>
  let s := s.invoke (Call.GetConnProfileList cpm) none w
  match connProfileShowLoop name cpList false s with
  | (true, s) => (Halt.returned, s)
  | (false, s) =>
    if name = "" then
      (Halt.returned, s.emit (Event.stdout "No connection profiles found!\n"))
    else
      (Halt.returned,
        s.emit (Event.stdout ("No connection profiles found matching " ++ name ++ "\n")))

/-- The key of a variable definition: the text before its first `=` (all of it
when it has none). -/
def keyOf (vdef : String) : String := String.mk (vdef.toList.takeWhile (fun c => c ≠ '='))

/-- A variable definition `conn add` accepts: one of the three variables, an `=`
and a value. -/
def wellFormed (vdef : String) : Prop :=
  keyOf vdef ∈ ["name", "type", "connstring"] ∧ '=' ∈ vdef.toList

instance wellFormed.decidable (vdef : String) : Decidable (wellFormed vdef) := by
  unfold wellFormed; infer_instance

/-- The profiles `conn show` selects for a requested name: all of them for the
empty name, else those of that name. -/
def selected (name : String) (cpList : List ConnProfile) : List ConnProfile :=
  cpList.filter (fun cp => name = "" ∨ cp.Name = name)

/-- The requested name of `conn show`: the first argument, or the empty name. -/
def requestedName (args : List String) : String := args.headD ""

/-! ## The program: flags and the log filter -/

/-- The package-level variables as their declarations initialise them:
`var ConnProfileName string` and `var LogLevel string = "WARN"`. -/
def initGlobals : Globals := { ConnProfileName := "", LogLevel := "WARN" }

/-- The fields of `logutils.LevelFilter` that `setupLog` sets (the `Writer` is
always `os.Stderr`). -/
structure LevelFilter where
  Levels : List String
  MinLevel : String
deriving DecidableEq, Repr

/-- A string flag registered in a `pflag.FlagSet`. -/
structure StringFlag where
  name : String
  shorthand : String
  value : String
  usage : String
deriving DecidableEq, Repr

/-- The method `StringVarP(p, name, shorthand, value, usage)` of the library
`pflag`: it stores the default `value` in the variable `p` points to and registers
the flag.  The pointer is given as the assignment to the variable. -/
def StringVarP (p : Globals → String → Globals) (name shorthand value usage : String)
    (st : Globals × List StringFlag) : Globals × List StringFlag :=
  (p st.1 value,
    st.2 ++ [{ name := name, shorthand := shorthand, value := value, usage := usage }])

/-- The function `parseCmds`, as far as the package-level variables and the
persistent flags of the root command go. -/
def parseCmds (g : Globals) : Globals × List StringFlag :=
  let st := StringVarP (fun g v => { g with ConnProfileName := v }) "conn" "c" ""
    "connection profile to use." (g, [])
  StringVarP (fun g v => { g with LogLevel := v }) "loglevel" "l" ""
    "log level to use (default WARN.)" st

/-- The function `setupLog`: the filter it passes to `log.SetOutput`. -/
def setupLog (g : Globals) : LevelFilter :=
  { Levels := ["DEBUG", "VERBOSE", "INFO", "WARN", "ERROR"],
    MinLevel := g.LogLevel }

/-- The state of the program after `main`: the log filter installed and the
package-level variables. -/
structure Program where
  logOutput : LevelFilter
  globals : Globals
deriving DecidableEq, Repr

/-- The function `main`.  `execute` is `cmd.Execute()` of the library `cobra`: it
parses the command line `osArgs` against the registered flags, which sets the
package-level variables, and runs the selected command. -/
def main (execute : List StringFlag → List String → Globals → Globals)
    (osArgs : List String) : Program :=
  let cmd := parseCmds initGlobals
  let filter := setupLog cmd.1
  { logOutput := filter, globals := execute cmd.2 osArgs cmd.1 }

/-- A command line parser for the demonstration: `--loglevel <v>` and `-l <v>` set
`LogLevel`, `--conn <v>` and `-c <v>` set `ConnProfileName`. -/
def demoExecute (flags : List StringFlag) : List String → Globals → Globals
  | "--loglevel" :: v :: rest, g => demoExecute flags rest { g with LogLevel := v }
  | "-l" :: v :: rest, g => demoExecute flags rest { g with LogLevel := v }
  | "--conn" :: v :: rest, g => demoExecute flags rest { g with ConnProfileName := v }
  | "-c" :: v :: rest, g => demoExecute flags rest { g with ConnProfileName := v }
  | _ :: rest, g => demoExecute flags rest g
  | [], g => g

/-! ## The frame codec -/

/-- Modelled from the spec: the sizes of the four header fields of the wire
envelope, in bytes.  The frame codec is not under src/, and the spec fixes the
fields and their order but not their sizes, so the sizes are a parameter. -/
structure HeaderLayout where
  opBytes : Nat
  groupBytes : Nat
  seqBytes : Nat
  lenBytes : Nat
deriving DecidableEq, Repr

/-- Modelled from the spec: the fixed size of the header, the frame codec being
absent from src/. -/
def HeaderLayout.size (L : HeaderLayout) : Nat :=
  L.opBytes + L.groupBytes + L.seqBytes + L.lenBytes

/-- Modelled from the spec: the Envelope of the data model (operation kind, target
group, sequence number, payload length, payload bytes), whose type is not under
src/. -/
structure Envelope where
  operationKind : Nat
  group : Nat
  sequenceNumber : Nat
  payloadLength : Nat
  payload : Bytes
deriving DecidableEq, Repr

/-- Modelled from the spec: the failures of `decode`, absent from src/: a buffer
shorter than the header, and a declared payload length that exceeds the bytes
available. -/
inductive DecodeError where
  | ShortHeader
  | TruncatedFrame
deriving DecidableEq, Repr

/-- Modelled from the spec: a header field of `width` bytes holding `n`, most
significant byte first (the field encoding of the absent frame codec). -/
def encodeField : Nat → Nat → Bytes
  | 0, _ => []
  | width + 1, n => encodeField width (n / 256) ++ [n % 256]

/-- Modelled from the spec: the number a header field holds (the field decoding of
the absent frame codec). -/
def decodeField (field : Bytes) : Nat :=
  field.foldl (fun acc b => acc * 256 + b) 0

/-- Modelled from the spec: `encode(operationKind, group, sequenceNumber, payload)`
of the absent frame codec: the header with the four fields, the payload length
being the number of payload bytes, immediately followed by the payload, with no
padding and no trailing delimiter. -/
def encode (L : HeaderLayout) (operationKind group sequenceNumber : Nat) (payload : Bytes) :
    Bytes :=
  encodeField L.opBytes operationKind ++ (encodeField L.groupBytes group ++
    (encodeField L.seqBytes sequenceNumber ++
      (encodeField L.lenBytes payload.length ++ payload)))

/-- Modelled from the spec: `decode(bytes)` of the absent frame codec.  It rejects
a buffer shorter than the header, and a declared payload length that exceeds the
bytes after the header (`TruncatedFrame`); else the payload is exactly the declared
number of bytes after the header. -/
def decode (L : HeaderLayout) (buf : Bytes) : Except DecodeError Envelope :=
  if buf.length < L.size then Except.error DecodeError.ShortHeader
  else
    let operationKind := decodeField (buf.take L.opBytes)
    let buf1 := buf.drop L.opBytes
    let group := decodeField (buf1.take L.groupBytes)
    let buf2 := buf1.drop L.groupBytes
    let sequenceNumber := decodeField (buf2.take L.seqBytes)
    let buf3 := buf2.drop L.seqBytes
    let payloadLength := decodeField (buf3.take L.lenBytes)
    let body := buf3.drop L.lenBytes
    if body.length < payloadLength then Except.error DecodeError.TruncatedFrame
    else
      Except.ok
        { operationKind := operationKind, group := group, sequenceNumber := sequenceNumber,
          payloadLength := payloadLength, payload := body.take payloadLength }

/-- Whether a number is in the range of a header field of `width` bytes. -/
def fits (width n : Nat) : Prop := n < 256 ^ width

instance fits.decidable (width n : Nat) : Decidable (fits width n) := by
  unfold fits; infer_instance

/-! ## The calls of one echo exchange -/

/-- The calls of `nmUsage` are the calls made before it: it calls no operation. -/
theorem calls_nmUsage {W : Type} (cmd : Option Command) (err : Option GoError) (s : Proc W) :
    calls (nmUsage cmd err s).2.trace = calls s.trace := by
  unfold nmUsage
  split <;> try split
  all_goals simp [calls, Proc.emit]

/-- The operations `echoRunCmd` calls are an initial segment of `echoSteps`. -/
theorem echoRunCmd_calls_inits {W : Type} (env : Env W) (g : Globals)
    (cmd : Option Command) (args : List String) (w : W) :
    calls (echoRunCmd env g cmd args (Proc.init w)).2.trace ∈ echoSteps.inits := by
  unfold echoRunCmd
  dsimp only [Proc.invoke, Proc.init]
  repeat' (first | rw [calls_nmUsage] | split)
  all_goals simp [calls, Proc.emit, Call.step, echoSteps]

/-- Claim C1.  In every run of `echoRunCmd` (any environment, any world, any
arguments) the operations called are an initial segment of the nine steps in source
order, so no step is repeated; `WriteReq` is called at most once, `ReadReq` at most
once, and a `ReadReq` has the `WriteReq` before it. -/
theorem echoRunCmd_at_most_one_send {W : Type} (env : Env W) (g : Globals)
    (cmd : Option Command) (args : List String) (w : W) :
    calls (echoRunCmd env g cmd args (Proc.init w)).2.trace <+: echoSteps ∧
    (calls (echoRunCmd env g cmd args (Proc.init w)).2.trace).count Step.WriteReq ≤ 1 ∧
    (calls (echoRunCmd env g cmd args (Proc.init w)).2.trace).count Step.ReadReq ≤ 1 ∧
    writeBeforeRead (calls (echoRunCmd env g cmd args (Proc.init w)).2.trace) := by
  have h := echoRunCmd_calls_inits env g cmd args w
  have key : ∀ tr ∈ echoSteps.inits, tr <+: echoSteps ∧ tr.count Step.WriteReq ≤ 1 ∧
      tr.count Step.ReadReq ≤ 1 ∧ writeBeforeRead tr := by
    decide
  exact key _ h


/-! ## The echo exchange end to end -/

/-- Claim C2.  When the eight steps up to `ReadReq` succeed on the arguments
`t :: rest` and `DecodeEchoResponse` returns `ersp` on the `Data` of the response,
`echoRunCmd` encodes the request from an echo whose `Message` is `t`, writes that
request once, decodes the `Data` of the response and prints the `Message` of what
the decoder returned, whatever that is, and returns.  When moreover the decoder is
the `decodeResponse` of a codec of the echo message and the `Data` of the response
is the encoding of `t` in that codec, the decoded `Message` is `t`, and `t` is what
is printed. -/
theorem echoRunCmd_echoes {W : Type} (env : Env W) (g : Globals) (cmd : Option Command)
    (t : String) (rest : List String)
    (w w1 w2 w3 w4 w5 w6 w7 w8 w9 : W) (cpm conn runner : Nat) (profile : ConnProfile)
    (echo0 ersp : Echo) (nmr rsp : NmgrReq)
    (h1 : env.NewCpMgr w = (Except.ok cpm, w1))
    (h2 : env.GetConnProfile cpm g.ConnProfileName w1 = (Except.ok profile, w2))
    (h3 : env.NewConn profile w2 = (Except.ok conn, w3))
    (h4 : env.NewCmdRunner conn w3 = (Except.ok runner, w4))
    (h5 : env.NewEcho w4 = (Except.ok echo0, w5))
    (h6 : env.EncodeWriteRequest { echo0 with Message := t } w5 = (Except.ok nmr, w6))
    (h7 : env.WriteReq runner nmr w6 = (none, w7))
    (h8 : env.ReadReq runner w7 = (Except.ok rsp, w8))
    (h9 : env.DecodeEchoResponse rsp.Data w8 = (Except.ok ersp, w9)) :
    (echoRunCmd env g cmd (t :: rest) (Proc.init w)).1 = Halt.returned ∧
    (echoRunCmd env g cmd (t :: rest) (Proc.init w)).2.world = w9 ∧
    (echoRunCmd env g cmd (t :: rest) (Proc.init w)).2.trace =
      [Event.call Call.NewCpMgr none,
       Event.call (Call.GetConnProfile cpm g.ConnProfileName) none,
       Event.call (Call.NewConn profile) none,
       Event.call (Call.NewCmdRunner conn) none,
       Event.call Call.NewEcho none,
       Event.call (Call.EncodeWriteRequest { echo0 with Message := t }) none,
       Event.call (Call.WriteReq runner nmr) none,
       Event.call (Call.ReadReq runner) none,
       Event.call (Call.DecodeEchoResponse rsp.Data) none,
       Event.stdout (ersp.Message ++ "\n")] ∧
    ∀ codec : EchoCodec,
      (∀ data w0, (env.DecodeEchoResponse data w0).1 = codec.decodeResponse data) →
      rsp.Data = codec.encodeRequest t →
        ersp.Message = t ∧
        printed (echoRunCmd env g cmd (t :: rest) (Proc.init w)).2.trace = [t ++ "\n"] := by
  have htrace : (echoRunCmd env g cmd (t :: rest) (Proc.init w)) =
      (Halt.returned,
        { world := w9,
          trace :=
            [Event.call Call.NewCpMgr none,
             Event.call (Call.GetConnProfile cpm g.ConnProfileName) none,
             Event.call (Call.NewConn profile) none,
             Event.call (Call.NewCmdRunner conn) none,
             Event.call Call.NewEcho none,
             Event.call (Call.EncodeWriteRequest { echo0 with Message := t }) none,
             Event.call (Call.WriteReq runner nmr) none,
             Event.call (Call.ReadReq runner) none,
             Event.call (Call.DecodeEchoResponse rsp.Data) none,
             Event.stdout (ersp.Message ++ "\n")] }) := by
    simp only [echoRunCmd, Proc.init, Proc.invoke, Proc.emit, h1, h2, h3, h4, h5, h6, h7, h8,
      h9, List.nil_append, List.cons_append]
  rw [htrace]
  refine ⟨rfl, rfl, rfl, ?_⟩
  intro codec hdec hpayload
  have hersp : ersp = { Message := t } := by
    have hd := hdec rsp.Data w8
    rw [h9, hpayload, codec.round_trip] at hd
    exact (Except.ok.inj hd.symm).symm
  subst hersp
  exact ⟨rfl, by simp [printed]⟩

/-- Witness of C2: the text `ping` against the loopback device, whose decoder is
that of the demonstration codec. -/
theorem echoRunCmd_echoes_witness :
    (echoRunCmd loopback demoGlobals (some echoCommand) ["ping"] (Proc.init [])).1
        = Halt.returned ∧
    (echoRunCmd loopback demoGlobals (some echoCommand) ["ping"] (Proc.init [])).2.trace =
      [Event.call Call.NewCpMgr none,
       Event.call (Call.GetConnProfile 1 "usb") none,
       Event.call (Call.NewConn { Name := "usb", Typ := "serial", ConnString := "/dev/ttyUSB0" })
         none,
       Event.call (Call.NewCmdRunner 2) none,
       Event.call Call.NewEcho none,
       Event.call (Call.EncodeWriteRequest { Message := "ping" }) none,
       Event.call (Call.WriteReq 3 { hdr := [], Data := [112, 105, 110, 103] }) none,
       Event.call (Call.ReadReq 3) none,
       Event.call (Call.DecodeEchoResponse [112, 105, 110, 103]) none,
       Event.stdout "ping\n"] ∧
    printed (echoRunCmd loopback demoGlobals (some echoCommand) ["ping"] (Proc.init [])).2.trace
      = ["ping\n"] :=
  have h := echoRunCmd_echoes loopback demoGlobals (some echoCommand) "ping" []
    [] [] [] [] [] [] [] [{ hdr := [], Data := [112, 105, 110, 103] }] [] []
    1 2 3 { Name := "usb", Typ := "serial", ConnString := "/dev/ttyUSB0" }
    { Message := "" } { Message := "ping" }
    { hdr := [], Data := [112, 105, 110, 103] } { hdr := [], Data := [112, 105, 110, 103] }
    rfl rfl rfl rfl rfl rfl rfl rfl rfl
  ⟨h.1, h.2.2.1, (h.2.2.2 demoCodec (fun _ _ => rfl) rfl).2⟩

/-! ## The transport is not closed -/

/-- Counterexample to C7: against the loopback device `transport.NewConn` succeeds
(the call is in the trace with a nil error), the command returns, and no `Close` of
the connection was called. -/
theorem echoRunCmd_leaves_transport_open :
    Event.call (Call.NewConn { Name := "usb", Typ := "serial", ConnString := "/dev/ttyUSB0" })
        none ∈
      (echoRunCmd loopback demoGlobals (some echoCommand) ["ping"] (Proc.init [])).2.trace ∧
    (echoRunCmd loopback demoGlobals (some echoCommand) ["ping"] (Proc.init [])).1
        = Halt.returned ∧
    Step.Close ∉
      calls (echoRunCmd loopback demoGlobals (some echoCommand) ["ping"] (Proc.init [])).2.trace := by
  decide

/-- Claim C7, amended.  On every path through `echoRunCmd`, whether
`transport.NewConn` succeeded or not and however the exchange ends, no `Close` of
the connection is called before the command ends. -/
theorem echoRunCmd_never_closes {W : Type} (env : Env W) (g : Globals)
    (cmd : Option Command) (args : List String) (w : W) :
    Step.Close ∉ calls (echoRunCmd env g cmd args (Proc.init w)).2.trace := by
  have h := echoRunCmd_calls_inits env g cmd args w
  have key : ∀ tr ∈ echoSteps.inits, Step.Close ∉ tr := by decide
  exact key _ h

/-! ## Failures of the echo exchange -/

/-- Evaluation for C3: the device never answers, `ReadReq` returns an error that is
not a `*util.NewtError`.  The type assertion of `nmUsage` panics: the command writes
nothing to the standard output, and the process ends with status 2, not 1. -/
theorem echoRunCmd_foreign_error_panics :
    (echoRunCmd silent demoGlobals (some echoCommand) ["ping"] (Proc.init [])).1
        = Halt.panic Panic.interfaceConversion ∧
    (echoRunCmd silent demoGlobals (some echoCommand) ["ping"] (Proc.init [])).1.status = 2 ∧
    printed (echoRunCmd silent demoGlobals (some echoCommand) ["ping"] (Proc.init [])).2.trace
        = [] ∧
    (echoRunCmd silent demoGlobals (some echoCommand) ["ping"] (Proc.init [])).2.trace =
      [Event.call Call.NewCpMgr none,
       Event.call (Call.GetConnProfile 1 "usb") none,
       Event.call (Call.NewConn { Name := "usb", Typ := "serial", ConnString := "/dev/ttyUSB0" })
         none,
       Event.call (Call.NewCmdRunner 2) none,
       Event.call Call.NewEcho none,
       Event.call (Call.EncodeWriteRequest { Message := "ping" }) none,
       Event.call (Call.WriteReq 3 { hdr := [], Data := [112, 105, 110, 103] }) none,
       Event.call (Call.ReadReq 3) (some (GoError.foreign "EOF"))] := by
  decide

/-- The way `nmUsage` ends does not depend on the state it is called in. -/
theorem nmUsage_fst {W : Type} (cmd : Option Command) (err : Option GoError) (s : Proc W)
    (w : W) : (nmUsage cmd err s).1 = (nmUsage cmd err { world := w, trace := [] }).1 := by
  unfold nmUsage
  split <;> try split
  all_goals rfl

/-- The function `nmUsage` appends its events to the trace. -/
theorem nmUsage_trace {W : Type} (cmd : Option Command) (err : Option GoError) (s : Proc W)
    (w : W) :
    (nmUsage cmd err s).2.trace
      = s.trace ++ (nmUsage cmd err { world := w, trace := [] }).2.trace := by
  unfold nmUsage
  split <;> try split
  all_goals simp [Proc.emit]

/-- The function `nmUsage` calls no operation of the other packages. -/
theorem nmUsage_no_call {W : Type} (cmd : Option Command) (err : Option GoError) (w : W)
    (c : Call) (r : Option GoError) :
    Event.call c r ∉ (nmUsage cmd err { world := w, trace := [] }).2.trace := by
  unfold nmUsage
  split <;> try split
  all_goals simp [Proc.emit]

/-- A trace that ends with a failed call, followed by a report, splits at that call. -/
theorem split_at_failed_call (tr rep : List Event) (c : Call) (err : GoError)
    (hlast : tr.getLast? = some (Event.call c (some err)))
    (hpre : ∀ e ∈ tr.dropLast, ∃ c0, e = Event.call c0 none) :
    ∃ pre, (∀ e ∈ pre, ∃ c0, e = Event.call c0 none) ∧
      tr ++ rep = pre ++ Event.call c (some err) :: rep := by
  refine ⟨tr.dropLast, hpre, ?_⟩
  have h : tr.dropLast ++ [Event.call c (some err)] = tr :=
    List.dropLast_append_getLast? (Event.call c (some err)) (by simp [hlast])
  conv_lhs => rw [← h]
  simp

/-- What follows a failed step.  In every run of `echoRunCmd`, when a call returned
an error, every call before it returned nil, the events after it are exactly those
of `nmUsage` on that error, and the run ends the way `nmUsage` ends: no later step
is executed and the echoed message is not printed. -/
theorem echoRunCmd_failure_stops {W : Type} (env : Env W) (g : Globals)
    (cmd : Option Command) (args : List String) (w : W) (c : Call) (err : GoError)
    (h : Event.call c (some err) ∈ (echoRunCmd env g cmd args (Proc.init w)).2.trace) :
    (echoRunCmd env g cmd args (Proc.init w)).1 = (nmUsage cmd (some err) (Proc.init w)).1 ∧
    ∃ pre, (∀ e ∈ pre, ∃ c0, e = Event.call c0 none) ∧
      (echoRunCmd env g cmd args (Proc.init w)).2.trace
        = pre ++ Event.call c (some err) :: (nmUsage cmd (some err) (Proc.init w)).2.trace := by
  revert h
  unfold echoRunCmd
  dsimp only [Proc.invoke, Proc.init]
  repeat' split
  all_goals
    intro h
    first
    | (rw [nmUsage_trace _ _ _ w] at h
       simp [nmUsage_no_call] at h
       obtain ⟨rfl, rfl⟩ := h
       refine ⟨nmUsage_fst _ _ _ w, ?_⟩
       rw [nmUsage_trace _ _ _ w]
       apply split_at_failed_call <;> simp)
    | (simp [Proc.emit] at h)

/-- A trace that ends with a failed call, followed by a report, has that call. -/
theorem failed_call_mem (tr rep : List Event) (c : Call) (err : GoError)
    (hlast : tr.getLast? = some (Event.call c (some err))) :
    Event.call c (some err) ∈ tr ++ rep :=
  List.mem_append_left _ (List.mem_of_getLast?_eq_some hlast)

/-- The function `nmUsage` never returns to its caller. -/
theorem nmUsage_ne_returned {W : Type} (cmd : Option Command) (err : Option GoError)
    (s : Proc W) : (nmUsage cmd err s).1 ≠ Halt.returned := by
  unfold nmUsage
  split <;> try split
  all_goals simp

/-- An error that is a `*util.NewtError` is reported.  In every run of `echoRunCmd`,
when a call returned such an error, the process exits with status 1 and the only
text the command itself writes to the standard output is `ERROR: <text>`. -/
theorem echoRunCmd_newt_error_reported {W : Type} (env : Env W) (g : Globals)
    (cmd : Option Command) (args : List String) (w : W) (c : Call) (text stack : String)
    (h : Event.call c (some (GoError.newt text stack)) ∈
      (echoRunCmd env g cmd args (Proc.init w)).2.trace) :
    (echoRunCmd env g cmd args (Proc.init w)).1 = Halt.exit 1 ∧
    printed (echoRunCmd env g cmd args (Proc.init w)).2.trace = ["ERROR: " ++ text ++ "\n"] := by
  obtain ⟨hend, pre, hpre, htr⟩ := echoRunCmd_failure_stops env g cmd args w c _ h
  have hprinted : printed pre = [] := by
    unfold printed
    rw [List.filterMap_eq_nil_iff]
    intro e he
    obtain ⟨c0, rfl⟩ := hpre e he
    rfl
  rw [hend, htr]
  unfold printed at hprinted ⊢
  rw [List.filterMap_append, hprinted]
  cases cmd <;> simp [nmUsage, Proc.init, Proc.emit, GoError.Error]

/-- The echoed message is printed exactly when all steps succeed: `echoRunCmd`
returns if and only if the nine steps were called and none returned an error. -/
theorem echoRunCmd_returned_iff {W : Type} (env : Env W) (g : Globals)
    (cmd : Option Command) (args : List String) (w : W) :
    (echoRunCmd env g cmd args (Proc.init w)).1 = Halt.returned ↔
      calls (echoRunCmd env g cmd args (Proc.init w)).2.trace = echoSteps ∧
      ∀ c err, Event.call c (some err) ∉ (echoRunCmd env g cmd args (Proc.init w)).2.trace := by
  unfold echoRunCmd
  dsimp only [Proc.invoke, Proc.init]
  repeat' split
  all_goals
    first
    | (rw [nmUsage_trace _ _ _ w]
       simp only [nmUsage_ne_returned, false_iff, not_and, not_forall, not_not]
       intro _
       exact ⟨_, _, failed_call_mem _ _ _ _ rfl⟩)
    | (simp [calls, Call.step, echoSteps, Proc.emit])

/-! ## Adding a connection profile -/

/-- The first piece of a split is the text before the first `=`. -/
theorem splitChars_head (cs : List Char) :
    ∃ rest, splitChars cs = cs.takeWhile (fun c => c ≠ '=') :: rest := by
  induction cs with
  | nil => exact ⟨[], rfl⟩
  | cons c cs ih =>
    obtain ⟨rest, hrest⟩ := ih
    by_cases hc : c = '='
    · exact ⟨splitChars cs, by simp [splitChars, hc]⟩
    · exact ⟨rest, by simp [splitChars, hc, hrest]⟩

/-- A text with an `=` splits into at least two pieces. -/
theorem splitChars_two (cs : List Char) (h : '=' ∈ cs) :
    ∃ v rest, splitChars cs = cs.takeWhile (fun c => c ≠ '=') :: v :: rest := by
  induction cs with
  | nil => simp at h
  | cons c cs ih =>
    by_cases hc : c = '='
    · obtain ⟨rest, hrest⟩ := splitChars_head cs
      subst hc
      refine ⟨cs.takeWhile (fun c => c ≠ '='), rest, ?_⟩
      rw [splitChars, if_pos rfl, hrest]
      rfl
    · have hmem : '=' ∈ cs := by
        rcases List.mem_cons.1 h with h0 | h0
        · exact absurd h0.symm hc
        · exact h0
      obtain ⟨v, rest, hrest⟩ := ih hmem
      exact ⟨v, rest, by simp [splitChars, hc, hrest]⟩

/-- The first string of `strings.Split(vdef, "=")` is the key of `vdef`. -/
theorem Split_head (vdef : String) : ∃ rest, Split vdef = keyOf vdef :: rest := by
  obtain ⟨rest, hrest⟩ := splitChars_head vdef.toList
  refine ⟨rest.map String.mk, ?_⟩
  unfold Split keyOf
  rw [hrest]
  rfl

/-- For a definition with an `=`, `strings.Split(vdef, "=")` has a second string. -/
theorem Split_two (vdef : String) (h : '=' ∈ vdef.toList) :
    ∃ v rest, Split vdef = keyOf vdef :: v :: rest := by
  obtain ⟨v, rest, hrest⟩ := splitChars_two vdef.toList h
  refine ⟨String.mk v, rest.map String.mk, ?_⟩
  unfold Split keyOf
  rw [hrest]
  rfl

/-- The loop over the variable definitions stops at the first definition with an
unknown key, in `nmUsage` with the error `Unknown variable <key>`. -/
theorem connProfileAddVars_unknown {W : Type} (env : Env W) (cmd : Option Command)
    (s : Proc W) (vdef : String) (post : List String)
    (hkey : keyOf vdef ∉ ["name", "type", "connstring"]) :
    ∀ (pre : List String) (cp : ConnProfile), (∀ d ∈ pre, wellFormed d) →
      connProfileAddVars env cmd s (pre ++ vdef :: post) cp =
        Except.error
          (nmUsage cmd (some (NewNewtError env ("Unknown variable " ++ keyOf vdef))) s) := by
  intro pre
  induction pre with
  | nil =>
    intro cp _
    obtain ⟨rest, hrest⟩ := Split_head vdef
    simp only [List.mem_cons, List.mem_singleton, not_or, List.not_mem_nil, or_false] at hkey
    simp [connProfileAddVars, hrest, hkey.1, hkey.2.1, hkey.2.2]
  | cons d pre ih =>
    intro cp hpre
    have hd : wellFormed d := hpre d (List.mem_cons_self _ _)
    have hpre2 : ∀ e ∈ pre, wellFormed e := fun e he => hpre e (List.mem_cons_of_mem _ he)
    obtain ⟨v, rest, hsplit⟩ := Split_two d hd.2
    have hk := hd.1
    simp only [List.mem_cons, List.mem_singleton, List.not_mem_nil, or_false] at hk
    simp only [List.cons_append, connProfileAddVars, hsplit]
    split_ifs <;> first | exact ih _ hpre2 | (exfalso; tauto)

/-- Claim C8.  When `NewCpMgr` and `NewConnProfile` succeed and the arguments are a
profile name, definitions `pre` that are all well formed, a definition `vdef` whose
key is none of `name`, `type`, `connstring`, and any further arguments,
`connProfileAddCmd` ends in `nmUsage` with the error `Unknown variable <key>`: the
process exits with status 1, the only text the command itself prints is the error,
`AddConnProfile` is not called, the success message is not printed, and the world
(the profile store in it) is as `NewConnProfile` left it. -/
theorem connProfileAddCmd_unknown_variable {W : Type} (env : Env W) (cmd : Option Command)
    (name : String) (pre : List String) (vdef : String) (post : List String)
    (w w1 w2 : W) (cpm : Nat) (cp : ConnProfile)
    (h1 : env.NewCpMgr w = (Except.ok cpm, w1))
    (h2 : env.NewConnProfile name w1 = (Except.ok cp, w2))
    (hpre : ∀ d ∈ pre, wellFormed d)
    (hkey : keyOf vdef ∉ ["name", "type", "connstring"]) :
    connProfileAddCmd env cmd (name :: (pre ++ vdef :: post)) (Proc.init w) =
      nmUsage cmd (some (NewNewtError env ("Unknown variable " ++ keyOf vdef)))
        { world := w2,
          trace := [Event.call Call.NewCpMgr none, Event.call (Call.NewConnProfile name) none] } ∧
    (connProfileAddCmd env cmd (name :: (pre ++ vdef :: post)) (Proc.init w)).1 = Halt.exit 1 ∧
    printed (connProfileAddCmd env cmd (name :: (pre ++ vdef :: post)) (Proc.init w)).2.trace =
      ["ERROR: Unknown variable " ++ keyOf vdef ++ "\n"] ∧
    calls (connProfileAddCmd env cmd (name :: (pre ++ vdef :: post)) (Proc.init w)).2.trace =
      [Step.NewCpMgr, Step.NewConnProfile] ∧
    Step.AddConnProfile ∉
      calls (connProfileAddCmd env cmd (name :: (pre ++ vdef :: post)) (Proc.init w)).2.trace ∧
    "Connection profile " ++ name ++ " successfully added\n" ∉
      printed (connProfileAddCmd env cmd (name :: (pre ++ vdef :: post)) (Proc.init w)).2.trace ∧
    (connProfileAddCmd env cmd (name :: (pre ++ vdef :: post)) (Proc.init w)).2.world = w2 := by
  have hrun : connProfileAddCmd env cmd (name :: (pre ++ vdef :: post)) (Proc.init w) =
      nmUsage cmd (some (NewNewtError env ("Unknown variable " ++ keyOf vdef)))
        { world := w2,
          trace := [Event.call Call.NewCpMgr none,
            Event.call (Call.NewConnProfile name) none] } := by
    simp only [connProfileAddCmd, Proc.init, Proc.invoke, h1, h2,
      connProfileAddVars_unknown env cmd _ vdef post hkey pre cp hpre, List.nil_append,
      List.cons_append]
  rw [hrun]
  refine ⟨rfl, ?_⟩
  have hne : ¬ "Connection profile " ++ (name ++ " successfully added\n") =
      "ERROR: " ++ ("Unknown variable " ++ (keyOf vdef ++ "\n")) := by
    intro h
    have hd := congrArg String.data h
    simp only [String.data_append] at hd
    exact absurd (List.head_eq_of_cons_eq hd) (by decide)
  cases cmd <;>
    simp [nmUsage, NewNewtError, GoError.Error, Proc.emit, printed, calls, Call.step,
      String.append_assoc, hne] <;>
    (rw [← String.append_assoc]; rfl)

/-- Witness of C8: `conn add usb type=serial baud=115200 connstring=/dev/ttyUSB0`. -/
theorem connProfileAddCmd_unknown_variable_witness :
    (connProfileAddCmd loopback none
        ["usb", "type=serial", "baud=115200", "connstring=/dev/ttyUSB0"] (Proc.init [])).1
      = Halt.exit 1 ∧
    printed (connProfileAddCmd loopback none
        ["usb", "type=serial", "baud=115200", "connstring=/dev/ttyUSB0"] (Proc.init [])).2.trace
      = ["ERROR: Unknown variable baud\n"] ∧
    calls (connProfileAddCmd loopback none
        ["usb", "type=serial", "baud=115200", "connstring=/dev/ttyUSB0"] (Proc.init [])).2.trace
      = [Step.NewCpMgr, Step.NewConnProfile] :=
  have h := connProfileAddCmd_unknown_variable loopback none "usb" ["type=serial"]
    "baud=115200" ["connstring=/dev/ttyUSB0"] [] [] [] 1
    { Name := "usb", Typ := "", ConnString := "" } rfl rfl (by decide) (by decide)
  ⟨h.2.1, h.2.2.1, h.2.2.2.1⟩

/-! ## Showing the connection profiles -/

/-- The loop of `connProfileShowCmd` prints the header once, before the first
selected profile unless `found` is already set, and the lines of the selected
profiles in the order of the list; it leaves `found` set when it printed a line. -/
theorem connProfileShowLoop_eq {W : Type} (name : String) :
    ∀ (cpList : List ConnProfile) (found : Bool) (s : Proc W),
      connProfileShowLoop name cpList found s =
        (found || !(selected name cpList).isEmpty,
          { world := s.world,
            trace := s.trace ++
              (if found = false ∧ selected name cpList ≠ []
                then [Event.stdout "Connection profiles: \n"] else []) ++
              (selected name cpList).map (fun cp => Event.stdout (profileLine cp)) }) := by
  intro cpList
  induction cpList with
  | nil => intro found s; simp [connProfileShowLoop, selected]
  | cons cp cpList ih =>
    intro found s
    by_cases hsel : name = "" ∨ cp.Name = name
    · have hskip : ¬ (name ≠ "" ∧ cp.Name ≠ name) := by tauto
      have hs : selected name (cp :: cpList) = cp :: selected name cpList := by
        simp [selected, hsel]
      rw [connProfileShowLoop, if_neg hskip, ih, hs]
      cases found <;> simp [Proc.emit]
    · have hskip : name ≠ "" ∧ cp.Name ≠ name := by tauto
      have hs : selected name (cp :: cpList) = selected name cpList := by
        simp [selected, hsel]
      rw [connProfileShowLoop, if_pos hskip, ih, hs]

/-- Claim C6.  When `NewCpMgr` succeeds and `GetConnProfileList` returns the list
`cpList`, `connProfileShowCmd` returns and what it prints is: the header followed by
the lines of the selected profiles, in the order of `cpList`, when a profile is
selected, and one line saying that no profile was found otherwise.  A profile of
the list is selected if and only if the requested name is empty or is its `Name`;
with no argument every profile is selected. -/
theorem connProfileShowCmd_prints_selected {W : Type} (env : Env W) (cmd : Option Command)
    (args : List String) (w w1 w2 : W) (cpm : Nat) (cpList : List ConnProfile)
    (h1 : env.NewCpMgr w = (Except.ok cpm, w1))
    (h2 : env.GetConnProfileList cpm w1 = (Except.ok cpList, w2)) :
    (connProfileShowCmd env cmd args (Proc.init w)).1 = Halt.returned ∧
    printed (connProfileShowCmd env cmd args (Proc.init w)).2.trace =
      (if selected (requestedName args) cpList = [] then
        [if requestedName args = "" then "No connection profiles found!\n"
          else "No connection profiles found matching " ++ requestedName args ++ "\n"]
       else
        "Connection profiles: \n" :: (selected (requestedName args) cpList).map profileLine) ∧
    (∀ cp, cp ∈ selected (requestedName args) cpList ↔
      cp ∈ cpList ∧ (requestedName args = "" ∨ cp.Name = requestedName args)) ∧
    (selected (requestedName args) cpList).Sublist cpList ∧
    (args = [] → selected (requestedName args) cpList = cpList) := by
  have hname : (match args with | arg0 :: _ => arg0 | [] => "") = requestedName args := by
    cases args <;> rfl
  refine ⟨?_, ?_, ?_, ?_, ?_⟩
  · simp only [connProfileShowCmd, Proc.init, Proc.invoke, h1, h2, hname,
      connProfileShowLoop_eq]
    cases hsel : (selected (requestedName args) cpList).isEmpty
    · simp
    · simp only [Bool.not_true, Bool.or_self]
      split_ifs <;> rfl
  · simp only [connProfileShowCmd, Proc.init, Proc.invoke, h1, h2, hname,
      connProfileShowLoop_eq]
    by_cases hsel : selected (requestedName args) cpList = []
    · simp only [hsel, List.isEmpty_nil, Bool.not_true, Bool.or_self, if_true]
      split_ifs <;> simp_all [printed, Proc.emit]
    · have hne : (selected (requestedName args) cpList).isEmpty = false := by
        cases h : selected (requestedName args) cpList with
        | nil => exact absurd h hsel
        | cons a l => rfl
      simp only [hne, Bool.not_false, Bool.or_true, if_neg hsel]
      simp [printed, hsel, List.filterMap_append, List.filterMap_map, Function.comp_def]
      exact List.filterMap_eq_map profileLine ▸ rfl
  · intro cp
    simp [selected]
  · exact List.filter_sublist _
  · intro hargs
    subst hargs
    simp [selected, requestedName]

/-- Witness of C6: `conn show usb` over three profiles, two of them named `usb`. -/
theorem connProfileShowCmd_prints_selected_witness :
    printed (connProfileShowCmd
        { loopback with GetConnProfileList := fun _ w =>
            (Except.ok [{ Name := "usb", Typ := "serial", ConnString := "/dev/ttyUSB0" },
                        { Name := "lab", Typ := "serial", ConnString := "/dev/ttyS1" },
                        { Name := "usb", Typ := "serial", ConnString := "/dev/ttyUSB1" }], w) }
        none ["usb"] (Proc.init [])).2.trace =
      ["Connection profiles: \n",
       "  usb: type=serial, connstring='/dev/ttyUSB0'\n",
       "  usb: type=serial, connstring='/dev/ttyUSB1'\n"] :=
  (connProfileShowCmd_prints_selected
    { loopback with GetConnProfileList := fun _ w =>
        (Except.ok [{ Name := "usb", Typ := "serial", ConnString := "/dev/ttyUSB0" },
                    { Name := "lab", Typ := "serial", ConnString := "/dev/ttyS1" },
                    { Name := "usb", Typ := "serial", ConnString := "/dev/ttyUSB1" }], w) }
    none ["usb"] [] [] [] 1 _ rfl rfl).2.1

/-! ## The log level -/

/-- The function `parseCmds` leaves `LogLevel` empty, whatever it was before:
registering the flag stores the default value of the flag in the variable. -/
theorem parseCmds_LogLevel (g : Globals) : (parseCmds g).1.LogLevel = "" := rfl

/-- Evaluation for C5.  Whatever the command line, and so when neither
`--loglevel` nor `-l` is given, the minimum level of the filter `setupLog`
installs is the empty string, not `WARN`: `parseCmds` has overwritten the initial
value of `LogLevel` with the default of the flag, and the command line is parsed
only after `setupLog`. -/
theorem main_log_filter_min_level
    (execute : List StringFlag → List String → Globals → Globals) (osArgs : List String) :
    (main execute osArgs).logOutput.MinLevel = "" ∧
    (main execute osArgs).logOutput.MinLevel ≠ "WARN" ∧
    (main demoExecute ["echo", "ping"]).logOutput.MinLevel = "" ∧
    (main demoExecute ["-l", "DEBUG", "echo", "ping"]).logOutput.MinLevel = "" := by
  refine ⟨rfl, ?_, rfl, rfl⟩
  show ("" : String) ≠ "WARN"
  decide

/-! ## The frame codec -/

/-- A header field of `width` bytes has `width` bytes. -/
theorem length_encodeField (width : Nat) : ∀ n, (encodeField width n).length = width := by
  induction width with
  | zero => intro n; rfl
  | succ k ih => intro n; simp [encodeField, ih]

/-- Decoding a header field gives the number encoded, reduced to the range of the
field. -/
theorem decodeField_encodeField (width : Nat) :
    ∀ n, decodeField (encodeField width n) = n % 256 ^ width := by
  induction width with
  | zero => intro n; simp [encodeField, decodeField, Nat.mod_one]
  | succ k ih =>
    intro n
    have h := ih (n / 256)
    unfold decodeField at h ⊢
    rw [encodeField, List.foldl_append, h, pow_succ, Nat.mul_comm (256 ^ k) 256, Nat.mod_mul]
    simp only [List.foldl_cons, List.foldl_nil]
    generalize n / 256 % 256 ^ k = t
    omega

/-- Decoding a header field gives back a number in the range of the field. -/
theorem decodeField_encodeField_of_fits (width n : Nat) (h : fits width n) :
    decodeField (encodeField width n) = n := by
  rw [decodeField_encodeField, Nat.mod_eq_of_lt h]

/-- Claim C4.  For every header layout, and every operation kind, group and
sequence number in the range of its field and payload whose length is in the range
of the length field, decoding the bytes `encode` produces returns the Envelope with
that operation kind, group and sequence number, the length of the payload and the
payload. -/
theorem decode_encode (L : HeaderLayout) (operationKind group sequenceNumber : Nat)
    (payload : Bytes) (hop : fits L.opBytes operationKind) (hgroup : fits L.groupBytes group)
    (hseq : fits L.seqBytes sequenceNumber) (hlen : fits L.lenBytes payload.length) :
    decode L (encode L operationKind group sequenceNumber payload) =
      Except.ok
        { operationKind := operationKind, group := group, sequenceNumber := sequenceNumber,
          payloadLength := payload.length, payload := payload } := by
  have hsize : ¬ (encode L operationKind group sequenceNumber payload).length < L.size := by
    simp [encode, length_encodeField, HeaderLayout.size]
    omega
  unfold decode
  rw [if_neg hsize]
  simp only [encode]
  rw [List.take_left' (length_encodeField _ _), List.drop_left' (length_encodeField _ _),
    List.take_left' (length_encodeField _ _), List.drop_left' (length_encodeField _ _),
    List.take_left' (length_encodeField _ _), List.drop_left' (length_encodeField _ _),
    List.take_left' (length_encodeField _ _), List.drop_left' (length_encodeField _ _),
    decodeField_encodeField_of_fits _ _ hop, decodeField_encodeField_of_fits _ _ hgroup,
    decodeField_encodeField_of_fits _ _ hseq, decodeField_encodeField_of_fits _ _ hlen]
  simp

/-- Witness of C4: a write (2) to group 0 with sequence number 7 and the four
payload bytes of `ping`, in a header of 1, 2, 1 and 2 bytes. -/
theorem decode_encode_witness :
    decode { opBytes := 1, groupBytes := 2, seqBytes := 1, lenBytes := 2 }
        (encode { opBytes := 1, groupBytes := 2, seqBytes := 1, lenBytes := 2 }
          2 0 7 [112, 105, 110, 103]) =
      Except.ok
        { operationKind := 2, group := 0, sequenceNumber := 7, payloadLength := 4,
          payload := [112, 105, 110, 103] } :=
  decode_encode { opBytes := 1, groupBytes := 2, seqBytes := 1, lenBytes := 2 } 2 0 7
    [112, 105, 110, 103] (by decide) (by decide) (by decide) (by decide)

end Newtmgr
